import Mathlib

/-!
Shallow embedding of the HTTP server in src/webserver.cpp and proofs about it.

Byte strings of the C++ program (std::string) are modelled as lists of
characters; machine integers as Int with explicit range checks where the
original would overflow or throw.
-/

set_option maxHeartbeats 1000000

namespace WebServerCpp

/-- Byte strings of the C++ program are modelled as lists of characters. -/
abbrev Str := List Char

/-- Whitespace of the C locale isspace, which governs formatted stream
extraction (operator >>) and std::stoi. -/
def isWs (c : Char) : Bool :=
  c == ' ' || c == '\t' || c == '\n' || c == Char.ofNat 11 || c == Char.ofNat 12 || c == '\r'

/-- Model of one std::getline step: the characters before the first newline,
and the characters after it (the newline is consumed and not stored). -/
def splitLine : Str → Str × Str
  | [] => ([], [])
  | c :: cs =>
    if c = '\n' then ([], cs)
    else
      let p := splitLine cs
      (c :: p.1, p.2)

/-- std::getline on an istringstream fails exactly when the stream is already
at end of input; otherwise it yields the line and the rest of the input. -/
def getLine : Str → Option (Str × Str)
  | [] => none
  | c :: cs => some (splitLine (c :: cs))

/-- One formatted string extraction (operator >>): skip leading whitespace and
take the maximal run of non-whitespace characters. When nothing can be
extracted the C++ target string keeps its previous (empty) value, which the
empty token models. -/
def extractToken (s : Str) : Str × Str :=
  let s1 := s.dropWhile isWs
  (s1.takeWhile (fun c => !isWs c), s1.dropWhile (fun c => !isWs c))

/-- Assignment into the unordered_map of headers (operator[] followed by =):
overwrite the value stored under an existing key, else add a new binding. -/
def hdrInsert : List (Str × Str) → Str → Str → List (Str × Str)
  | [], k, v => [(k, v)]
  | (a, b) :: tl, k, v => if a == k then (a, v) :: tl else (a, b) :: hdrInsert tl k v

/-- std::string::find for the character ':' (index of the first occurrence). -/
def findColon : Str → Option Nat
  | [] => none
  | c :: cs => if c = ':' then some 0 else (findColon cs).map (fun i => i + 1)

/-- Body of the header loop of HTTPRequest::parse for one nonempty, non-blank
line: pop a trailing carriage return, split at the first colon (lines without
a colon are skipped), strip blanks at the front of the value, store. -/
def processHeaderLine (m : List (Str × Str)) (line : Str) : List (Str × Str) :=
  let line1 := if line.getLast? == some '\r' then line.dropLast else line
  match findColon line1 with
  | none => m
  | some i =>
    let key := line1.take i
    let value := (line1.drop (i + 1)).dropWhile (fun c => c == ' ' || c == '\t')
    hdrInsert m key value

/-- The header loop of HTTPRequest::parse: read lines until getline fails or a
blank line (empty or a lone carriage return) is met. The fuel argument only
makes the recursion structural: every iteration consumes at least one input
character, so any fuel of at least the input length behaves like the loop. -/
def parseHeaderLinesF : Nat → Str → List (Str × Str) → List (Str × Str) × Str
  | 0, s, m => (m, s)
  | fuel + 1, s, m =>
    match getLine s with
    | none => (m, [])
    | some (line, rest) =>
      if line == [] || line == ['\r'] then (m, rest)
      else parseHeaderLinesF fuel rest (processHeaderLine m line)

/-- Decimal value of a digit run, as accumulated by std::stoi. -/
def digitsToNat (ds : Str) : Nat := ds.foldl (fun a c => a * 10 + (c.toNat - 48)) 0

/-- Model of std::stoi in base 10: skip leading whitespace, optional sign,
then a greedy nonempty digit run; none models the invalid_argument exception
(no digits) and the out_of_range exception (value outside 32-bit int). -/
def stoi (s : Str) : Option Int :=
  let s1 := s.dropWhile isWs
  let sgn : Int × Str :=
    match s1 with
    | c :: cs => if c = '-' then (-1, cs) else if c = '+' then (1, cs) else (1, s1)
    | [] => (1, s1)
  let ds := sgn.2.takeWhile Char.isDigit
  if ds = [] then none
  else
    let v : Int := sgn.1 * Int.ofNat (digitsToNat ds)
    if v < -2147483648 ∨ 2147483647 < v then none else some v

/-- Exceptions HTTPRequest::parse can raise while reading the body:
invalid_argument or out_of_range from std::stoi on the Content-Length value,
and length_error from constructing a vector whose size is a negative int
converted to size_t. -/
inductive ParseErr where
  | invalidArgument
  | lengthError
  deriving DecidableEq

/-- The literal header key "Content-Length". -/
def contentLengthKey : Str := ("Content-Length").toList

/-- The literal header key "Content-Type". -/
def contentTypeKey : Str := ("Content-Type").toList

/-- The body-reading step of HTTPRequest::parse: when a Content-Length header
is present, convert it with stoi, allocate a zero-initialised buffer of that
size, fill it with the remaining stream characters (istream::read stops at end
of input and leaves the tail of the buffer zero), and take the whole buffer as
the body. -/
def readBody (headers : List (Str × Str)) (rest : Str) : Except ParseErr Str :=
  match List.lookup contentLengthKey headers with
  | none => Except.ok []
  | some v =>
    match stoi v with
    | none => Except.error ParseErr.invalidArgument
    | some n =>
      if n < 0 then Except.error ParseErr.lengthError
      else Except.ok (rest.take n.toNat ++ List.replicate (n.toNat - rest.length) (Char.ofNat 0))

/-- The HTTPRequest class. Fields default to empty as in a freshly constructed
object. -/
structure HTTPRequest where
  method : Str := []
  path : Str := []
  version : Str := []
  headers : List (Str × Str) := []
  body : Str := []
  deriving DecidableEq

/-- HTTPRequest::parse. The result is the final state of the request object
together with the exception raised, if any: the C++ member function mutates
the object in place, so on an exception the request line and headers parsed
before the throw are kept while the body keeps its initial empty value. -/
def HTTPRequest.parse (input : Str) : HTTPRequest × Option ParseErr :=
  match getLine input with
  | none => ({}, none)
  | some (line, rest) =>
    let t1 := extractToken line
    let t2 := extractToken t1.2
    let t3 := extractToken t2.2
    let hp := parseHeaderLinesF (rest.length + 1) rest []
    match readBody hp.1 hp.2 with
    | Except.ok b =>
      ({ method := t1.1, path := t2.1, version := t3.1, headers := hp.1, body := b }, none)
    | Except.error e =>
      ({ method := t1.1, path := t2.1, version := t3.1, headers := hp.1, body := [] }, some e)

/-- The HTTPResponse class. -/
structure HTTPResponse where
  version : Str
  status_code : Int
  status_message : Str
  headers : List (Str × Str)
  body : Str
  deriving DecidableEq

/-- The HTTPResponse default constructor: HTTP/1.1, 200, OK, no headers, no
body. -/
def defaultResponse : HTTPResponse :=
  { version := ("HTTP/1.1").toList, status_code := 200, status_message := ("OK").toList,
    headers := [], body := [] }

/-- Decimal rendering of a natural number (std::to_string). -/
def natChars (n : Nat) : Str := (Nat.repr n).toList

/-- Decimal rendering of an int (operator<< on an int). -/
def intChars (i : Int) : Str := (Int.repr i).toList

/-- HTTPResponse::setContent: set the body, then the Content-Type header, then
the Content-Length header from the body size. The C++ default argument for
content_type is "text/html"; callers relying on the default pass it here
explicitly. -/
def HTTPResponse.setContent (r : HTTPResponse) (content : Str) (content_type : Str) : HTTPResponse :=
  let r1 := { r with body := content }
  let r2 := { r1 with headers := hdrInsert r1.headers contentTypeKey content_type }
  { r2 with headers := hdrInsert r2.headers contentLengthKey (natChars r2.body.length) }

/-- HTTPResponse::toString: the status line, each stored header in the
mapping's iteration order (modelled as the association-list order), a blank
line, then the raw body appended verbatim. -/
def HTTPResponse.toString (r : HTTPResponse) : Str :=
  let statusLine := r.version ++ ' ' :: intChars r.status_code ++ ' ' :: r.status_message ++ ['\r', '\n']
  let withHeaders := r.headers.foldl (fun acc h => acc ++ h.1 ++ ':' :: ' ' :: h.2 ++ ['\r', '\n']) statusLine
  withHeaders ++ '\r' :: '\n' :: r.body

/-- Handlers stored in the route table. -/
abbrev Handler := HTTPRequest → HTTPResponse → HTTPResponse

/-- The fixed HTML body of the 404 page. -/
def notFoundBody : Str := ("<html><body><h1>404 Not Found</h1></body></html>").toList

/-- The 404 branch of the connection handling code in WebServer::start. -/
def set404 (response : HTTPResponse) : HTTPResponse :=
  HTTPResponse.setContent
    { response with status_code := 404, status_message := ("Not Found").toList }
    notFoundBody (("text/html").toList)

/-- Route lookup and handler invocation in WebServer::start: the request path
is looked up in the route table by exact string equality; a found handler runs
on a freshly default-constructed response, otherwise the 404 branch runs. -/
def dispatch (routes : List (Str × Handler)) (request : HTTPRequest) : HTTPResponse :=
  match List.lookup request.path routes with
  | some handler => handler request defaultResponse
  | none => set404 defaultResponse

/-- Observable outcome of one iteration of the accept loop for the accepted
connection: the serialized response written back (if any), whether the client
socket was closed, and whether the accept loop keeps running afterwards. -/
structure ConnOutcome where
  responseSent : Option Str
  clientClosed : Bool
  loopContinues : Bool
  deriving DecidableEq

/-- One iteration of the accept loop of WebServer::start, after recv returned
bytes_received and delivered data. When parse raises, the exception propagates
out of the while loop into the catch block: no response is sent, the
closesocket call on the client is skipped, and the loop terminates. -/
def handleIteration (routes : List (Str × Handler)) (bytes_received : Int) (data : Str) :
    ConnOutcome :=
  if 0 < bytes_received then
    match HTTPRequest.parse data with
    | (_, some _) => { responseSent := none, clientClosed := false, loopContinues := false }
    | (request, none) =>
      { responseSent := some (dispatch routes request).toString,
        clientClosed := true, loopContinues := true }
  else { responseSent := none, clientClosed := true, loopContinues := true }

/-- Size of the stack receive buffer in WebServer::start. -/
def buffer_size : Nat := 8192

/-- The bytes the single recv call can deliver: the call caps the read at
buffer_size - 1 bytes (one slot of the zeroed buffer is left untouched). -/
def recvBytes (sent : Str) : Str := sent.take (buffer_size - 1)

/-- A full connection cycle for a client whose pending bytes are sent, with
recv delivering as much of them as the capped single read allows. -/
def connectionStep (routes : List (Str × Handler)) (sent : Str) : ConnOutcome :=
  handleIteration routes (Int.ofNat (recvBytes sent).length) (recvBytes sent)

/-- The suffix test hasExtension defined inside addStaticFileRoute: false when
the string is shorter than the extension, else compare the final characters. -/
def hasExtension (str ext : Str) : Bool :=
  if str.length < ext.length then false
  else str.drop (str.length - ext.length) == ext

/-- The MIME table of addStaticFileRoute, in source order, over hasExtension. -/
def contentTypeFor (file_path : Str) : Str :=
  if hasExtension file_path ((".html").toList) || hasExtension file_path ((".htm").toList) then
    ("text/html").toList
  else if hasExtension file_path ((".css").toList) then ("text/css").toList
  else if hasExtension file_path ((".js").toList) then ("application/javascript").toList
  else if hasExtension file_path ((".json").toList) then ("application/json").toList
  else if hasExtension file_path ((".png").toList) then ("image/png").toList
  else if hasExtension file_path ((".jpg").toList) || hasExtension file_path ((".jpeg").toList) then
    ("image/jpeg").toList
  else if hasExtension file_path ((".gif").toList) then ("image/gif").toList
  else ("text/plain").toList

/-- The fixed suffix table in the words of the specification, stated with the
library suffix test; second definition kept for the refinement comparison with
contentTypeFor. -/
def specSuffixContentType (p : Str) : Str :=
  if List.isSuffixOf ((".html").toList) p || List.isSuffixOf ((".htm").toList) p then
    ("text/html").toList
  else if List.isSuffixOf ((".css").toList) p then ("text/css").toList
  else if List.isSuffixOf ((".js").toList) p then ("application/javascript").toList
  else if List.isSuffixOf ((".json").toList) p then ("application/json").toList
  else if List.isSuffixOf ((".png").toList) p then ("image/png").toList
  else if List.isSuffixOf ((".jpg").toList) p || List.isSuffixOf ((".jpeg").toList) p then
    ("image/jpeg").toList
  else if List.isSuffixOf ((".gif").toList) p then ("image/gif").toList
  else ("text/plain").toList

/-- The closure registered by WebServer::addStaticFileRoute. The file read the
closure performs on each invocation is modelled by the fileRead argument: some
bytes when the ifstream opened and delivered those bytes at this invocation,
none when is_open failed. -/
def staticFileHandler (file_path : Str) (fileRead : Option Str) : Handler :=
  fun _ res =>
    match fileRead with
    | some contents => res.setContent contents (contentTypeFor file_path)
    | none =>
      HTTPResponse.setContent
        { res with status_code := 404, status_message := ("Not Found").toList }
        notFoundBody (("text/html").toList)

/-- Carriage return and line feed. -/
def crlf : Str := ['\r', '\n']

/-- A rendered header line: name, colon, one space, value, CRLF. -/
def renderHeaderLine (kv : Str × Str) : Str := kv.1 ++ ':' :: ' ' :: kv.2 ++ crlf

/-- The rendered header block of a request. -/
def renderHeaderBlock (hs : List (Str × Str)) : Str := (hs.map renderHeaderLine).flatten

/-- Request text built from its parts: request line, header lines, blank line. -/
def renderRequest (m p v : Str) (hs : List (Str × Str)) : Str :=
  m ++ ' ' :: p ++ ' ' :: v ++ crlf ++ renderHeaderBlock hs ++ crlf

/-- The header mapping obtained by inserting the listed pairs in order, so a
later duplicate overwrites an earlier one. -/
def buildMap (hs : List (Str × Str)) : List (Str × Str) :=
  hs.foldl (fun a kv => hdrInsert a kv.1 kv.2) []

/-- A nonempty whitespace-free token, fit for the request line. -/
abbrev isToken (s : Str) : Prop := s ≠ [] ∧ ∀ c ∈ s, isWs c = false

/-- A header name fit for a Name: value line: no colon, no line breaks. -/
abbrev goodName (s : Str) : Prop := ∀ c ∈ s, c ≠ ':' ∧ c ≠ '\n' ∧ c ≠ '\r'

/-- A header value that round-trips: no line breaks and no leading blank that
the parser would strip. -/
abbrev goodValue (s : Str) : Prop :=
  (∀ c ∈ s, c ≠ '\n' ∧ c ≠ '\r') ∧ s.head? ≠ some ' ' ∧ s.head? ≠ some '\t'

/-- Serialization format in the words of the specification: status line, one
rendered line per header entry in the mapping's iteration order, blank line,
raw body; second definition kept for the comparison with toString. -/
def specSerialize (r : HTTPResponse) : Str :=
  (r.version ++ ' ' :: intChars r.status_code ++ ' ' :: r.status_message ++ crlf)
    ++ (r.headers.map (fun kv => kv.1 ++ ':' :: ' ' :: kv.2 ++ crlf)).flatten
    ++ crlf ++ r.body

/-- Substring test: the needle occurs contiguously inside the haystack. -/
def containsSeg (hay needle : Str) : Bool :=
  (List.range (hay.length + 1)).any (fun i => List.isPrefixOf needle (hay.drop i))

/-- A request whose Content-Length value is not a number. -/
def badContentLengthInput : Str :=
  ("GET / HTTP/1.1\r\nContent-Length: abc\r\n\r\n").toList

/-- A request that declares five body bytes but carries only two. -/
def truncatedBodyInput : Str :=
  ("POST /x HTTP/1.1\r\nContent-Length: 5\r\n\r\nab").toList

/-- A response with nondefault fields and a custom header, used to observe
what setContent leaves untouched. -/
def sampleResponse : HTTPResponse :=
  { version := ("HTTP/1.0").toList, status_code := 503,
    status_message := ("Service Unavailable").toList,
    headers := [(("X-Custom").toList, ("1").toList)], body := ("old").toList }

/-- A request for a path registered under no route. -/
def nopeRequest : HTTPRequest := { path := ("/nope").toList }

/-! Helper lemmas about the header mapping. -/

theorem hdrInsert_lookup_self (m : List (Str × Str)) (k v : Str) :
    List.lookup k (hdrInsert m k v) = some v := by
  induction m with
  | nil => simp [hdrInsert, List.lookup]
  | cons a tl ih =>
    obtain ⟨a1, a2⟩ := a
    by_cases h : a1 = k
    · subst h
      simp [hdrInsert, List.lookup]
    · have hb : (a1 == k) = false := by simp [h]
      have hb' : (k == a1) = false := by simp [Ne.symm h]
      simp [hdrInsert, hb, hb', List.lookup, ih]

theorem hdrInsert_lookup_ne (m : List (Str × Str)) (k v k' : Str) (h : k' ≠ k) :
    List.lookup k' (hdrInsert m k v) = List.lookup k' m := by
  induction m with
  | nil =>
    have hb : (k' == k) = false := by simp [h]
    simp [hdrInsert, List.lookup, hb]
  | cons a tl ih =>
    obtain ⟨a1, a2⟩ := a
    by_cases ha : a1 = k
    · subst ha
      have hb : (k' == a1) = false := by simp [h]
      simp [hdrInsert, List.lookup, hb]
    · have hb : (a1 == k) = false := by simp [ha]
      by_cases hk : k' = a1
      · subst hk
        simp [hdrInsert, hb, List.lookup]
      · have hb' : (k' == a1) = false := by simp [hk]
        simp [hdrInsert, hb, List.lookup, hb', ih]

theorem lookup_append_model (k : Str) (xs ys : List (Str × Str)) :
    List.lookup k (xs ++ ys) =
      match List.lookup k xs with
      | some v => some v
      | none => List.lookup k ys := by
  induction xs with
  | nil => simp [List.lookup]
  | cons a tl ih =>
    obtain ⟨a1, a2⟩ := a
    by_cases h : k = a1
    · subst h
      simp [List.lookup]
    · have hb : (k == a1) = false := by simp [h]
      simp [List.lookup, hb, ih]

theorem lookup_foldl_hdrInsert (hs : List (Str × Str)) (acc : List (Str × Str)) (k : Str) :
    List.lookup k (hs.foldl (fun a kv => hdrInsert a kv.1 kv.2) acc) =
      match List.lookup k hs.reverse with
      | some v => some v
      | none => List.lookup k acc := by
  induction hs generalizing acc with
  | nil => simp [List.lookup]
  | cons kv tl ih =>
    obtain ⟨k1, v1⟩ := kv
    rw [List.foldl_cons, ih, List.reverse_cons, lookup_append_model]
    cases htl : List.lookup k tl.reverse with
    | some v => simp
    | none =>
      by_cases h : k = k1
      · subst h
        simp [List.lookup, hdrInsert_lookup_self]
      · have hb : (k == k1) = false := by simp [h]
        simp [List.lookup, hb, hdrInsert_lookup_ne _ _ _ _ h]

theorem lookup_buildMap (hs : List (Str × Str)) (k : Str) :
    List.lookup k (buildMap hs) = List.lookup k hs.reverse := by
  rw [buildMap, lookup_foldl_hdrInsert]
  cases List.lookup k hs.reverse <;> simp [List.lookup]

/-! Helper lemmas about line splitting and token extraction. -/

theorem splitLine_append (l rest : Str) (h : ∀ c ∈ l, c ≠ '\n') :
    splitLine (l ++ '\n' :: rest) = (l, rest) := by
  induction l with
  | nil => simp [splitLine]
  | cons c cs ih =>
    have hc : c ≠ '\n' := h c (by simp)
    have ih' := ih (fun x hx => h x (by simp [hx]))
    simp only [List.cons_append, splitLine, if_neg hc, List.append_eq, ih']

theorem getLine_append (l rest : Str) (h : ∀ c ∈ l, c ≠ '\n') :
    getLine (l ++ '\n' :: rest) = some (l, rest) := by
  cases l with
  | nil => simp [getLine, splitLine]
  | cons c cs =>
    have hsp := splitLine_append (c :: cs) rest h
    rw [List.cons_append]
    rw [show getLine (c :: (cs ++ '\n' :: rest)) = some (splitLine (c :: (cs ++ '\n' :: rest)))
      from rfl]
    rw [← List.cons_append, hsp]

theorem takeWhile_nonWs (t r : Str) (hall : ∀ c ∈ t, isWs c = false)
    (hr : ∀ c, r.head? = some c → isWs c = true) :
    (t ++ r).takeWhile (fun c => !isWs c) = t := by
  induction t with
  | nil =>
    cases r with
    | nil => simp
    | cons c cs => simp [List.takeWhile_cons, hr c rfl]
  | cons c cs ih =>
    have hc : isWs c = false := hall c (by simp)
    simp only [List.cons_append, List.takeWhile_cons, hc]
    rw [ih (fun x hx => hall x (by simp [hx]))]
    simp

theorem dropWhile_nonWs (t r : Str) (hall : ∀ c ∈ t, isWs c = false)
    (hr : ∀ c, r.head? = some c → isWs c = true) :
    (t ++ r).dropWhile (fun c => !isWs c) = r := by
  induction t with
  | nil =>
    cases r with
    | nil => simp
    | cons c cs => simp [List.dropWhile_cons, hr c rfl]
  | cons c cs ih =>
    have hc : isWs c = false := hall c (by simp)
    simp only [List.cons_append, List.dropWhile_cons, hc]
    rw [ih (fun x hx => hall x (by simp [hx]))]
    simp

theorem extractToken_spec (t r : Str) (ht : t ≠ []) (hall : ∀ c ∈ t, isWs c = false)
    (hr : ∀ c, r.head? = some c → isWs c = true) :
    extractToken (t ++ r) = (t, r) := by
  have hdrop : (t ++ r).dropWhile isWs = t ++ r := by
    cases t with
    | nil => exact absurd rfl ht
    | cons c cs =>
      have hc : isWs c = false := hall c (by simp)
      simp [List.dropWhile_cons, hc]
  rw [extractToken]
  simp only [hdrop]
  rw [takeWhile_nonWs t r hall hr, dropWhile_nonWs t r hall hr]

theorem extractToken_cons_ws (c : Char) (s : Str) (hc : isWs c = true) :
    extractToken (c :: s) = extractToken s := by
  simp [extractToken, List.dropWhile_cons, hc]

/-! Helper lemmas about header-line processing. -/

theorem findColon_append (k : Str) (rest : Str) (hk : ∀ c ∈ k, c ≠ ':') :
    findColon (k ++ ':' :: rest) = some k.length := by
  induction k with
  | nil => simp [findColon]
  | cons c cs ih =>
    have hc : c ≠ ':' := hk c (by simp)
    have ih' := ih (fun x hx => hk x (by simp [hx]))
    simp only [List.cons_append, findColon, if_neg hc, List.append_eq]
    rw [ih']
    simp

theorem dropWhile_blank_value (v : Str) (hv : v.head? ≠ some ' ' ∧ v.head? ≠ some '\t') :
    (' ' :: v).dropWhile (fun c => c == ' ' || c == '\t') = v := by
  rw [List.dropWhile_cons_of_pos (by simp)]
  cases v with
  | nil => simp
  | cons c cs =>
    have h1 : c ≠ ' ' := by
      intro h; exact hv.1 (by simp [h])
    have h2 : c ≠ '\t' := by
      intro h; exact hv.2 (by simp [h])
    rw [List.dropWhile_cons_of_neg (by simp [h1, h2])]

theorem processHeaderLine_render (m : List (Str × Str)) (k v : Str)
    (hk : goodName k) (hv : goodValue v) :
    processHeaderLine m (k ++ ':' :: ' ' :: v ++ ['\r']) = hdrInsert m k v := by
  have hcat : k ++ ':' :: ' ' :: v ++ ['\r'] = (k ++ ':' :: ' ' :: v) ++ ['\r'] := by
    simp
  have h1 : ((k ++ ':' :: ' ' :: v ++ ['\r']).getLast? == some '\r') = true := by
    rw [hcat, List.getLast?_concat]
    simp
  have h2 : (k ++ ':' :: ' ' :: v ++ ['\r']).dropLast = k ++ ':' :: ' ' :: v := by
    rw [hcat, List.dropLast_concat]
  have h3 : List.take k.length (k ++ ':' :: ' ' :: v) = k := List.take_left' rfl
  have h4 : List.drop (k.length + 1) (k ++ ':' :: ' ' :: v) = ' ' :: v := by
    rw [show k ++ ':' :: ' ' :: v = (k ++ [':']) ++ (' ' :: v) by simp]
    exact List.drop_left' (by simp)
  rw [processHeaderLine]
  simp only [h1, if_true, h2, findColon_append k (' ' :: v) (fun c hc => (hk c hc).1)]
  simp only [h3, h4, dropWhile_blank_value v hv.2]

theorem parseHeaderLinesF_render (hs : List (Str × Str)) (tl : Str) (m0 : List (Str × Str))
    (fuel : Nat) (hfuel : (renderHeaderBlock hs).length + 2 + tl.length ≤ fuel)
    (hgood : ∀ kv ∈ hs, goodName kv.1 ∧ goodValue kv.2) :
    parseHeaderLinesF fuel (renderHeaderBlock hs ++ '\r' :: '\n' :: tl) m0 =
      (hs.foldl (fun a kv => hdrInsert a kv.1 kv.2) m0, tl) := by
  induction hs generalizing m0 fuel with
  | nil =>
    cases fuel with
    | zero => omega
    | succ f =>
      show parseHeaderLinesF (f + 1) ([] ++ '\r' :: '\n' :: tl) m0 = (m0, tl)
      simp [parseHeaderLinesF, getLine, splitLine]
  | cons kv rest ih =>
    obtain ⟨k, v⟩ := kv
    have hk : goodName k := (hgood (k, v) (by simp)).1
    have hv : goodValue v := (hgood (k, v) (by simp)).2
    have hblock : renderHeaderBlock ((k, v) :: rest) ++ '\r' :: '\n' :: tl =
        (k ++ ':' :: ' ' :: v ++ ['\r']) ++ '\n' ::
          (renderHeaderBlock rest ++ '\r' :: '\n' :: tl) := by
      simp [renderHeaderBlock, renderHeaderLine, crlf]
    have hlen : (renderHeaderBlock ((k, v) :: rest)).length =
        (k.length + v.length + 4) + (renderHeaderBlock rest).length := by
      simp [renderHeaderBlock, renderHeaderLine, crlf]
      omega
    cases fuel with
    | zero => omega
    | succ f =>
      have hnl : ∀ c ∈ k ++ ':' :: ' ' :: v ++ ['\r'], c ≠ '\n' := by
        intro c hc
        rw [List.mem_append] at hc
        rcases hc with h | h
        · rw [List.mem_append] at h
          rcases h with h | h
          · exact (hk c h).2.1
          · rw [List.mem_cons] at h
            rcases h with h | h
            · simp [h]
            · rw [List.mem_cons] at h
              rcases h with h | h
              · simp [h]
              · exact (hv.1 c h).1
        · rw [List.mem_singleton] at h
          simp [h]
      have hxne : k ++ ':' :: ' ' :: (v ++ ['\r']) ≠ ([] : Str) := by
        intro h
        simpa using congrArg List.length h
      have hxne2 : k ++ ':' :: ' ' :: (v ++ ['\r']) ≠ ['\r'] := by
        intro h
        have hl := congrArg List.length h
        simp only [List.length_append, List.length_cons, List.length_nil] at hl
        omega
      have hne : ((k ++ ':' :: ' ' :: v ++ ['\r'] == ([] : Str))
          || (k ++ ':' :: ' ' :: v ++ ['\r'] == ['\r'])) = false := by
        simp [beq_iff_eq, hxne, hxne2]
      rw [hblock]
      simp only [parseHeaderLinesF, getLine_append _ _ hnl, hne, Bool.false_eq_true,
        if_false, processHeaderLine_render m0 k v hk hv]
      rw [ih (hdrInsert m0 k v) f (by omega) (fun x hx => hgood x (by simp [hx]))]
      simp [List.foldl_cons]

theorem ne_nl_of_not_ws (c : Char) (h : isWs c = false) : c ≠ '\n' := by
  intro he
  subst he
  have hw : isWs '\n' = true := by decide
  rw [hw] at h
  exact absurd h (by decide)

/-- Core shape of HTTPRequest::parse on a rendered request followed by
arbitrary remaining bytes: the request line and header block are recovered
exactly, and what happens next is the body-reading step on the remainder. -/
theorem parse_render (m p v : Str) (hs : List (Str × Str)) (tl : Str)
    (hm : isToken m) (hp : isToken p) (hv : isToken v)
    (hgood : ∀ kv ∈ hs, goodName kv.1 ∧ goodValue kv.2) :
    HTTPRequest.parse (renderRequest m p v hs ++ tl) =
      (match readBody (buildMap hs) tl with
       | Except.ok b =>
         ({ method := m, path := p, version := v, headers := buildMap hs, body := b }, none)
       | Except.error e =>
         ({ method := m, path := p, version := v, headers := buildMap hs, body := [] },
           some e)) := by
  have hreq : renderRequest m p v hs ++ tl =
      (m ++ ' ' :: (p ++ ' ' :: (v ++ ['\r']))) ++
        '\n' :: (renderHeaderBlock hs ++ '\r' :: '\n' :: tl) := by
    simp [renderRequest, crlf]
  have hl : ∀ c ∈ m ++ ' ' :: (p ++ ' ' :: (v ++ ['\r'])), c ≠ '\n' := by
    intro c hc
    rw [List.mem_append] at hc
    rcases hc with h | h
    · exact ne_nl_of_not_ws c (hm.2 c h)
    · rw [List.mem_cons] at h
      rcases h with h | h
      · simp [h]
      · rw [List.mem_append] at h
        rcases h with h | h
        · exact ne_nl_of_not_ws c (hp.2 c h)
        · rw [List.mem_cons] at h
          rcases h with h | h
          · simp [h]
          · rw [List.mem_append] at h
            rcases h with h | h
            · exact ne_nl_of_not_ws c (hv.2 c h)
            · rw [List.mem_singleton] at h
              simp [h]
  have e1 : extractToken (m ++ ' ' :: (p ++ ' ' :: (v ++ ['\r']))) =
      (m, ' ' :: (p ++ ' ' :: (v ++ ['\r']))) :=
    extractToken_spec m _ hm.1 hm.2 (fun c hc => by
      simp only [List.head?_cons, Option.some.injEq] at hc
      rw [← hc]
      decide)
  have e2 : extractToken (' ' :: (p ++ ' ' :: (v ++ ['\r']))) =
      (p, ' ' :: (v ++ ['\r'])) := by
    rw [extractToken_cons_ws ' ' _ (by decide)]
    exact extractToken_spec p _ hp.1 hp.2 (fun c hc => by
      simp only [List.head?_cons, Option.some.injEq] at hc
      rw [← hc]
      decide)
  have e3 : extractToken (' ' :: (v ++ ['\r'])) = (v, ['\r']) := by
    rw [extractToken_cons_ws ' ' _ (by decide)]
    exact extractToken_spec v _ hv.1 hv.2 (fun c hc => by
      simp only [List.head?_cons, Option.some.injEq] at hc
      rw [← hc]
      decide)
  have hrest : (renderHeaderBlock hs ++ '\r' :: '\n' :: tl).length =
      (renderHeaderBlock hs).length + 2 + tl.length := by
    simp
    omega
  have hloop := parseHeaderLinesF_render hs tl []
    ((renderHeaderBlock hs ++ '\r' :: '\n' :: tl).length + 1) (by omega) hgood
  rw [HTTPRequest.parse, hreq, getLine_append _ _ hl]
  simp only [e1, e2, e3, hloop, buildMap]

/-! Helper lemmas for serialization and the suffix table. -/

theorem foldl_render_headers (l : List (Str × Str)) (init : Str) :
    l.foldl (fun acc h => acc ++ h.1 ++ ':' :: ' ' :: h.2 ++ ['\r', '\n']) init =
      init ++ (l.map (fun kv => kv.1 ++ ':' :: ' ' :: kv.2 ++ crlf)).flatten := by
  induction l generalizing init with
  | nil => simp
  | cons kv rest ih =>
    rw [List.foldl_cons, ih]
    simp [crlf, List.append_assoc]

theorem hasExtension_isSuffixOf (s ext : Str) :
    hasExtension s ext = List.isSuffixOf ext s := by
  rw [hasExtension]
  by_cases h : s.length < ext.length
  · rw [if_pos h]
    cases hs : List.isSuffixOf ext s
    · rfl
    · exfalso
      have hsuf : ext <:+ s := List.isSuffixOf_iff_suffix.mp (by rw [hs])
      have := hsuf.length_le
      omega
  · rw [if_neg h]
    cases hs : List.isSuffixOf ext s
    · rw [beq_eq_false_iff_ne]
      intro he
      have hsuf : ext <:+ s := List.suffix_iff_eq_drop.mpr he.symm
      have : List.isSuffixOf ext s = true := by
        rw [List.isSuffixOf_iff_suffix]
        exact hsuf
      rw [this] at hs
      exact absurd hs (by decide)
    · have hsuf : ext <:+ s := List.isSuffixOf_iff_suffix.mp (by rw [hs])
      have hd := List.suffix_iff_eq_drop.mp hsuf
      rw [← hd]
      simp

/-! The claims. -/

/-- C1: for every request text made of a well-formed request line, rendered
Name: value header lines and a blank line, HTTPRequest::parse recovers exactly
the method, path, version and header mapping used to construct it; keys are
compared by exact (case-sensitive) string equality and for a duplicated name
the last occurrence's value is the one stored. -/
theorem parse_roundtrip (m p v : Str) (hs : List (Str × Str))
    (hm : isToken m) (hp : isToken p) (hv : isToken v)
    (hgood : ∀ kv ∈ hs, goodName kv.1 ∧ goodValue kv.2) :
    (HTTPRequest.parse (renderRequest m p v hs)).1.method = m ∧
    (HTTPRequest.parse (renderRequest m p v hs)).1.path = p ∧
    (HTTPRequest.parse (renderRequest m p v hs)).1.version = v ∧
    (HTTPRequest.parse (renderRequest m p v hs)).1.headers = buildMap hs ∧
    ∀ k, List.lookup k (HTTPRequest.parse (renderRequest m p v hs)).1.headers =
      List.lookup k hs.reverse := by
  have h := parse_render m p v hs [] hm hp hv hgood
  rw [List.append_nil] at h
  rw [h]
  cases hrb : readBody (buildMap hs) [] with
  | ok b =>
    exact ⟨rfl, rfl, rfl, rfl, fun k => lookup_buildMap hs k⟩
  | error e =>
    exact ⟨rfl, rfl, rfl, rfl, fun k => lookup_buildMap hs k⟩

/-- Witness for parse_roundtrip: a concrete request with a duplicated header
whose parsed mapping keeps the later value. -/
theorem parse_roundtrip_check :
    (HTTPRequest.parse (renderRequest (("GET").toList) (("/").toList)
      (("HTTP/1.1").toList)
      [((("Host").toList), (("a").toList)), ((("Host").toList), (("b").toList))])).1.headers =
      [((("Host").toList), (("b").toList))] := by
  have h := parse_roundtrip (("GET").toList) (("/").toList) (("HTTP/1.1").toList)
    [((("Host").toList), (("a").toList)), ((("Host").toList), (("b").toList))]
    (by exact ⟨by decide, by decide⟩) (by exact ⟨by decide, by decide⟩)
    (by exact ⟨by decide, by decide⟩) (by decide)
  rw [h.2.2.2.1]
  decide

/-- C4: when the declared Content-Length is n and at least n bytes follow the
header block, the parsed body is exactly those n bytes; with no Content-Length
header no body bytes are read and the body stays empty. -/
theorem parse_body_exact (m p v : Str) (hs : List (Str × Str)) (b : Str)
    (hm : isToken m) (hp : isToken p) (hv : isToken v)
    (hgood : ∀ kv ∈ hs, goodName kv.1 ∧ goodValue kv.2) :
    (List.lookup contentLengthKey (buildMap hs) = none →
      HTTPRequest.parse (renderRequest m p v hs ++ b) =
        ({ method := m, path := p, version := v, headers := buildMap hs, body := [] }, none)) ∧
    (∀ (n : Nat) (val : Str), List.lookup contentLengthKey (buildMap hs) = some val →
      stoi val = some ((n : Nat) : Int) → n ≤ b.length →
      (HTTPRequest.parse (renderRequest m p v hs ++ b)).1.body = b.take n ∧
      (b.take n).length = n ∧
      (HTTPRequest.parse (renderRequest m p v hs ++ b)).2 = none) := by
  have h := parse_render m p v hs b hm hp hv hgood
  constructor
  · intro hnone
    have hrb : readBody (buildMap hs) b = Except.ok [] := by
      rw [readBody, hnone]
    rw [h, hrb]
  · intro n val hlook hstoi hlen
    have hrb : readBody (buildMap hs) b = Except.ok (b.take n) := by
      rw [readBody, hlook]
      simp only [hstoi]
      rw [if_neg (by omega)]
      have ht : ((n : Nat) : Int).toNat = n := by omega
      rw [ht]
      have hz : n - b.length = 0 := by omega
      rw [hz]
      simp
    rw [h, hrb]
    refine ⟨rfl, ?_, rfl⟩
    rw [List.length_take]
    omega

/-- Witness for parse_body_exact: a concrete request with Content-Length 2 and
two following bytes. -/
theorem parse_body_exact_check :
    (HTTPRequest.parse (renderRequest (("POST").toList) (("/x").toList)
      (("HTTP/1.1").toList) [((("Content-Length").toList), (("2").toList))] ++
      (("hi").toList))).1.body = ("hi").toList := by
  have h := parse_body_exact (("POST").toList) (("/x").toList) (("HTTP/1.1").toList)
    [((("Content-Length").toList), (("2").toList))] (("hi").toList)
    (by exact ⟨by decide, by decide⟩) (by exact ⟨by decide, by decide⟩)
    (by exact ⟨by decide, by decide⟩) (by decide)
  have h2 := (h.2 2 (("2").toList) (by decide) (by decide) (by decide)).1
  rw [h2]
  decide

/-- C2 counterexample: on a request declaring five body bytes of which only
two are available, the stored body is not the two available bytes: it is the
two bytes padded with three NUL characters. -/
theorem parse_truncated_clamp_cex :
    (HTTPRequest.parse truncatedBodyInput).1.body =
      ('a' :: 'b' :: Char.ofNat 0 :: Char.ofNat 0 :: Char.ofNat 0 :: []) ∧
    (HTTPRequest.parse truncatedBodyInput).1.body ≠ ("ab").toList := by
  constructor
  · decide
  · decide

/-- C2 amended: when the declared Content-Length n exceeds the bytes available
after the header block, parse reads no further than the end of the buffer and
raises no error, but the body is not clamped: it is the available bytes padded
with NUL characters to length exactly n. -/
theorem parse_truncated_pads (m p v : Str) (hs : List (Str × Str)) (b : Str)
    (hm : isToken m) (hp : isToken p) (hv : isToken v)
    (hgood : ∀ kv ∈ hs, goodName kv.1 ∧ goodValue kv.2)
    (n : Nat) (val : Str)
    (hlook : List.lookup contentLengthKey (buildMap hs) = some val)
    (hstoi : stoi val = some ((n : Nat) : Int)) (hlen : b.length < n) :
    (HTTPRequest.parse (renderRequest m p v hs ++ b)).1.body =
      b ++ List.replicate (n - b.length) (Char.ofNat 0) ∧
    ((HTTPRequest.parse (renderRequest m p v hs ++ b)).1.body).length = n ∧
    (HTTPRequest.parse (renderRequest m p v hs ++ b)).2 = none := by
  have h := parse_render m p v hs b hm hp hv hgood
  have hrb : readBody (buildMap hs) b =
      Except.ok (b ++ List.replicate (n - b.length) (Char.ofNat 0)) := by
    rw [readBody, hlook]
    simp only [hstoi]
    rw [if_neg (by omega)]
    have ht : ((n : Nat) : Int).toNat = n := by omega
    rw [ht, List.take_of_length_le (by omega)]
  rw [h, hrb]
  refine ⟨rfl, ?_, rfl⟩
  rw [List.length_append, List.length_replicate]
  omega

/-- Witness for parse_truncated_pads at the concrete truncated request. -/
theorem parse_truncated_pads_check :
    (HTTPRequest.parse (renderRequest (("POST").toList) (("/x").toList)
      (("HTTP/1.1").toList) [((("Content-Length").toList), (("5").toList))] ++
      (("ab").toList))).1.body =
      ("ab").toList ++ List.replicate 3 (Char.ofNat 0) := by
  have h := parse_truncated_pads (("POST").toList) (("/x").toList) (("HTTP/1.1").toList)
    [((("Content-Length").toList), (("5").toList))] (("ab").toList)
    (by exact ⟨by decide, by decide⟩) (by exact ⟨by decide, by decide⟩)
    (by exact ⟨by decide, by decide⟩) (by decide)
    5 (("5").toList) (by decide) (by decide) (by decide)
  rw [h.1]
  decide

/-- C3: at the failing input whose Content-Length value is not a number, parse
raises (the error is not swallowed); in the loop iteration for that connection
no response is sent, the closesocket call on the client socket is skipped, and
the accept loop terminates instead of continuing. -/
theorem badContentLength_kills_loop :
    (HTTPRequest.parse badContentLengthInput).2 = some ParseErr.invalidArgument ∧
    handleIteration [] (Int.ofNat badContentLengthInput.length) badContentLengthInput =
      { responseSent := none, clientClosed := false, loopContinues := false } := by
  constructor
  · decide
  · decide

/-- C5: setContent stores the content as the body and sets the Content-Length
header to the decimal byte length of the content and the Content-Type header
to the given type; concretely, setting abc as text/plain on a fresh response
serializes to output containing the two headers and ending in the bytes abc. -/
theorem setContent_roundtrip (r : HTTPResponse) (c t : Str) :
    (r.setContent c t).body = c ∧
    List.lookup contentLengthKey (r.setContent c t).headers = some (natChars c.length) ∧
    List.lookup contentTypeKey (r.setContent c t).headers = some t ∧
    (containsSeg ((defaultResponse.setContent (("abc").toList) (("text/plain").toList)).toString)
        (("Content-Length: 3").toList) = true ∧
      containsSeg ((defaultResponse.setContent (("abc").toList) (("text/plain").toList)).toString)
        (("Content-Type: text/plain").toList) = true ∧
      List.isSuffixOf (("abc").toList)
        ((defaultResponse.setContent (("abc").toList) (("text/plain").toList)).toString) = true) := by
  refine ⟨rfl, ?_, ?_, by decide, by decide, by decide⟩
  · rw [HTTPResponse.setContent]
    exact hdrInsert_lookup_self _ _ _
  · rw [HTTPResponse.setContent]
    rw [hdrInsert_lookup_ne _ _ _ _ (by decide)]
    exact hdrInsert_lookup_self _ _ _

/-- C6: serialization yields the status line, then each header entry once as
a name, colon, space, value line ending in CRLF in the mapping's iteration
order, then one blank CRLF, then the raw body verbatim; a fresh response is
HTTP/1.1, 200, OK with no headers and no body. -/
theorem serialize_format_and_default (r : HTTPResponse) :
    r.toString = specSerialize r ∧
    defaultResponse.version = ("HTTP/1.1").toList ∧
    defaultResponse.status_code = 200 ∧
    defaultResponse.status_message = ("OK").toList ∧
    defaultResponse.headers = [] ∧
    defaultResponse.body = [] := by
  refine ⟨?_, rfl, rfl, rfl, rfl, rfl⟩
  rw [HTTPResponse.toString, specSerialize]
  rw [foldl_render_headers]
  simp [crlf, List.append_assoc]

/-- C7: route resolution is exact string comparison of the request path with
the registered paths, with no trailing-slash, query or prefix matching: a
table with only the path /foo resolves neither /foo/ nor a query-carrying
path, and any request whose path is not exactly a registered path gets status
404, message Not Found and the fixed 404 HTML body. -/
theorem route_exact_404 (routes : List (Str × Handler)) (request : HTTPRequest)
    (hmiss : List.lookup request.path routes = none) :
    ((dispatch routes request).status_code = 404 ∧
      (dispatch routes request).status_message = ("Not Found").toList ∧
      (dispatch routes request).body = notFoundBody) ∧
    ∀ handler : Handler,
      List.lookup (("/foo/").toList) [((("/foo").toList), handler)] = none ∧
      List.lookup (("/foo?q=x").toList) [((("/foo").toList), handler)] = none := by
  constructor
  · rw [dispatch, hmiss]
    exact ⟨rfl, rfl, rfl⟩
  · intro handler
    constructor
    · have hne : ((("/foo/").toList : Str) == (("/foo").toList : Str)) = false := by decide
      simp [List.lookup, hne]
    · have hne : ((("/foo?q=x").toList : Str) == (("/foo").toList : Str)) = false := by decide
      simp [List.lookup, hne]

/-- Witness for route_exact_404 at an empty route table and the path /nope. -/
theorem route_exact_404_check :
    (dispatch [] nopeRequest).status_code = 404 ∧
    (dispatch [] nopeRequest).body = notFoundBody := by
  have h := route_exact_404 [] nopeRequest rfl
  exact ⟨h.1.1, h.1.2.2⟩

/-- C8: the static-file handler built by addStaticFileRoute answers a failed
open with status 404, message Not Found and the fixed 404 HTML body; a
successful read keeps the default status 200 and responds with the file bytes
as body and the Content-Type chosen from the file path suffix by the fixed
table, which agrees with the table in the specification. -/
theorem staticFileRoute_spec (file_path : Str) (contents : Str) (request : HTTPRequest) :
    ((staticFileHandler file_path none request defaultResponse).status_code = 404 ∧
      (staticFileHandler file_path none request defaultResponse).status_message =
        ("Not Found").toList ∧
      (staticFileHandler file_path none request defaultResponse).body = notFoundBody) ∧
    ((staticFileHandler file_path (some contents) request defaultResponse).status_code = 200 ∧
      (staticFileHandler file_path (some contents) request defaultResponse).status_message =
        ("OK").toList ∧
      (staticFileHandler file_path (some contents) request defaultResponse).body = contents ∧
      List.lookup contentTypeKey
          (staticFileHandler file_path (some contents) request defaultResponse).headers =
        some (contentTypeFor file_path) ∧
      List.lookup contentLengthKey
          (staticFileHandler file_path (some contents) request defaultResponse).headers =
        some (natChars contents.length)) ∧
    contentTypeFor file_path = specSuffixContentType file_path := by
  refine ⟨⟨rfl, rfl, rfl⟩, ⟨rfl, rfl, rfl, ?_, ?_⟩, ?_⟩
  · rw [show (staticFileHandler file_path (some contents) request defaultResponse) =
      defaultResponse.setContent contents (contentTypeFor file_path) from rfl]
    rw [HTTPResponse.setContent]
    rw [hdrInsert_lookup_ne _ _ _ _ (by decide)]
    exact hdrInsert_lookup_self _ _ _
  · rw [show (staticFileHandler file_path (some contents) request defaultResponse) =
      defaultResponse.setContent contents (contentTypeFor file_path) from rfl]
    rw [HTTPResponse.setContent]
    exact hdrInsert_lookup_self _ _ _
  · rw [contentTypeFor, specSuffixContentType]
    simp only [hasExtension_isSuffixOf]

/-- C9 counterexample: a request of exactly 8192 bytes is not processed whole;
the single recv is capped one byte below the 8192-byte buffer, so only 8191
bytes reach the parser. -/
theorem recv_cap_cex :
    (recvBytes (List.replicate 8192 'a')).length = 8191 ∧ (8191 : Nat) ≠ 8192 := by
  constructor
  · rw [recvBytes, buffer_size, List.length_take, List.length_replicate]
    decide
  · decide

/-- C9 amended: each accepted connection gets a single read of up to 8191
bytes (the 8192-byte buffer keeps one zero slot), truncating longer requests;
when the read returns zero or negative bytes, processing is skipped entirely
(no parse, no handler, no response bytes) and the client socket is closed with
the loop continuing. -/
theorem recv_cap_and_skip (routes : List (Str × Handler)) (sent : Str) (n : Int) (data : Str)
    (hn : n ≤ 0) :
    recvBytes sent = sent.take 8191 ∧
    connectionStep routes sent =
      handleIteration routes (Int.ofNat (sent.take 8191).length) (sent.take 8191) ∧
    handleIteration routes n data =
      { responseSent := none, clientClosed := true, loopContinues := true } := by
  have hb : recvBytes sent = sent.take 8191 := by
    rw [recvBytes, buffer_size]
  refine ⟨hb, ?_, ?_⟩
  · rw [connectionStep, hb]
  · rw [handleIteration, if_neg (by omega)]

/-- Witness for recv_cap_and_skip at a concrete short request and a failed
read. -/
theorem recv_cap_and_skip_check :
    handleIteration [] (-1) (("GET / HTTP/1.1\r\n\r\n").toList) =
      { responseSent := none, clientClosed := true, loopContinues := true } :=
  (recv_cap_and_skip [] [] (-1) (("GET / HTTP/1.1\r\n\r\n").toList) (by decide)).2.2

/-- C10: setContent changes only the body and the Content-Type and
Content-Length header entries; the version, status code, status message and
every other header entry keep their previous values. -/
theorem setContent_frame (r : HTTPResponse) (c t : Str) :
    (r.setContent c t).version = r.version ∧
    (r.setContent c t).status_code = r.status_code ∧
    (r.setContent c t).status_message = r.status_message ∧
    ∀ k, k ≠ contentTypeKey → k ≠ contentLengthKey →
      List.lookup k (r.setContent c t).headers = List.lookup k r.headers := by
  refine ⟨rfl, rfl, rfl, ?_⟩
  intro k h1 h2
  rw [HTTPResponse.setContent]
  rw [hdrInsert_lookup_ne _ _ _ _ h2, hdrInsert_lookup_ne _ _ _ _ h1]

/-- Witness for setContent_frame: a custom header of a concrete response is
unchanged by setContent. -/
theorem setContent_frame_check :
    List.lookup (("X-Custom").toList)
        (sampleResponse.setContent (("new").toList) (("text/css").toList)).headers =
      List.lookup (("X-Custom").toList) sampleResponse.headers :=
  (setContent_frame sampleResponse (("new").toList) (("text/css").toList)).2.2.2
    (("X-Custom").toList) (by decide) (by decide)

end WebServerCpp
